import Mathlib

/-!
Verification of the Oktabot production-pipeline orchestrator against its
natural-language specification.

The definitions below are a shallow embedding, translated from the Python
sources:
  * `src/utils/common.py`   — `ErrorClassifier`, `RetryHandler`,
    `AssetVerifier`, `AtomicFileWriter`
  * `src/utils/pre_editor_validator.py` — `PreEditorValidator`
  * `src/producer.py`       — `Producer.run_pipeline`, `is_step_complete`,
    `verify_file_integrity`

Machine-level details that the claims do not depend on (concrete byte-level
serialisation, log text of reasons) are represented by explicit inductive
payloads; order of checks, defaults, fallbacks and control flow follow the
source line by line.
-/

namespace Oktabot

/-! ## String helpers (Python `keyword in error_str` is substring search) -/

/-- Substring containment, mirroring Python's `pat in s`. -/
def strContains (s pat : String) : Bool :=
  s.toList.tails.any (fun t => pat.toList.isPrefixOf t)

/-- Python's `str.lower()` (character-wise; the messages and keyword lists the
classifier compares are ASCII). -/
def strLower (s : String) : String :=
  ⟨s.data.map Char.toLower⟩

/-! ## ErrorType and ErrorClassifier (src/utils/common.py lines 36-145) -/

/-- Error classification for intelligent retry strategies (`class ErrorType`). -/
inductive ErrorType where
  | QUOTA
  | NETWORK
  | DISK
  | CONFIG
  | CODE_BUG
  | SYSTEM
deriving DecidableEq, Repr

/-- Python exception classes that `classify_error` inspects via `issubclass`. -/
inductive ExcType where
  | exception
  | osError
  | connectionError
  | timeoutError
  | permissionError
  | fileNotFoundError
  | memoryError
  | valueError
  | jsonDecodeError
  | keyError
  | typeError
deriving DecidableEq, Repr

/-- Reflexive-transitive superclass list of each exception class in CPython
(`FileNotFoundError`, `PermissionError`, `ConnectionError` and `TimeoutError`
all derive from `OSError`; `json.JSONDecodeError` derives from `ValueError`). -/
def ExcType.ancestors : ExcType → List ExcType
  | .exception => [.exception]
  | .osError => [.osError, .exception]
  | .connectionError => [.connectionError, .osError, .exception]
  | .timeoutError => [.timeoutError, .osError, .exception]
  | .permissionError => [.permissionError, .osError, .exception]
  | .fileNotFoundError => [.fileNotFoundError, .osError, .exception]
  | .memoryError => [.memoryError, .exception]
  | .valueError => [.valueError, .exception]
  | .jsonDecodeError => [.jsonDecodeError, .valueError, .exception]
  | .keyError => [.keyError, .exception]
  | .typeError => [.typeError, .exception]

/-- Python `issubclass(a, b)`. -/
def ExcType.isSub (a b : ExcType) : Bool :=
  b ∈ a.ancestors

/-- Default for `config.get("quota_errors", [...])` in `ErrorClassifier.__init__`. -/
def defaultQuotaKeywords : List String :=
  ["quota", "rate limit", "429", "too many requests", "resource exhausted"]

/-- Model of `self.network_keywords` (hardcoded in `ErrorClassifier.__init__`). -/
def networkKeywords : List String :=
  ["connection", "timeout", "network", "dns", "ssl", "certificate"]

/-- Model of `self.disk_keywords`. -/
def diskKeywords : List String :=
  ["no space", "disk full", "permission denied", "file not found"]

/-- Model of `self.system_keywords`. -/
def systemKeywords : List String :=
  ["memory", "ram", "cpu", "system", "os error"]

/-- The slice of the JSON config that `ErrorClassifier.__init__` reads:
`config.get("quota_errors", default)`. `none` means the key is absent. -/
structure ClassifierConfig where
  quotaErrors : Option (List String) := none

/-- Model of `self.quota_keywords` after `__init__`. -/
def ClassifierConfig.quotaKeywords (cc : ClassifierConfig) : List String :=
  cc.quotaErrors.getD defaultQuotaKeywords

/-- Python `any(keyword in error_str for keyword in keys)`. -/
def anyKeyword (keys : List String) (s : String) : Bool :=
  keys.any (fun k => strContains s k)

/-- Model of `ErrorClassifier.classify_error(error_message, exception_type)`:
keyword checks on the lower-cased message in fixed priority order, then the
exception-type fallback chain, then `CODE_BUG`. -/
def classify_error (cc : ClassifierConfig) (msg : String)
    (excType : Option ExcType) : ErrorType :=
  let s := strLower msg
  if anyKeyword cc.quotaKeywords s then .QUOTA
  else if anyKeyword networkKeywords s then .NETWORK
  else if anyKeyword diskKeywords s then .DISK
  else if anyKeyword systemKeywords s then .SYSTEM
  else
    match excType with
    | some t =>
      if t.isSub .connectionError || t.isSub .timeoutError then .NETWORK
      else if t.isSub .osError || t.isSub .osError || t.isSub .permissionError then .DISK
      else if t.isSub .memoryError then .SYSTEM
      else if t.isSub .fileNotFoundError || t.isSub .jsonDecodeError
          || t.isSub .keyError || t.isSub .valueError || t.isSub .typeError then .CONFIG
      else .CODE_BUG
    | none => .CODE_BUG

/-- Model of `ErrorClassifier.is_retryable`. -/
def is_retryable : ErrorType → Bool
  | .QUOTA | .NETWORK | .DISK | .SYSTEM => true
  | .CONFIG | .CODE_BUG => false

/-- True when the lower-cased message matches none of the quota, network, disk
or system keyword lists (so `classify_error` falls through to the
exception-type mapping). -/
def noKeywordMatch (cc : ClassifierConfig) (msg : String) : Bool :=
  let s := strLower msg
  !anyKeyword cc.quotaKeywords s && !anyKeyword networkKeywords s
    && !anyKeyword diskKeywords s && !anyKeyword systemKeywords s

/-! ## RetryHandler (src/utils/common.py lines 282-358) -/

/-- One entry of `config["retry_policies"]`; `none` fields are absent keys,
read with `.get(key, default)`. -/
structure PolicyDict where
  maxRetriesKey : Option Nat := none
  baseDelaySeconds : Option ℚ := none
  exponentialBackoff : Option Bool := none

/-- The slice of the config that `RetryHandler` reads. `policies t` models
`retry_policies.get(f"{t.value}_errors")`. -/
structure RetryConfig where
  policies : ErrorType → Option PolicyDict
  quotaErrors : Option (List String) := none

/-- The classifier built by `RetryHandler.__init__` from the same config. -/
def RetryConfig.classifier (c : RetryConfig) : ClassifierConfig :=
  { quotaErrors := c.quotaErrors }

/-- Model of `self.retry_policies.get(policy_name, self.retry_policies.get("system_errors", \x7b\x7d))`. -/
def RetryConfig.policy (c : RetryConfig) (t : ErrorType) : PolicyDict :=
  (c.policies t).getD ((c.policies .SYSTEM).getD {})

/-- Model of `RetryHandler._get_max_retries`: `policy.get("max_retries", 3)`. -/
def maxRetriesFor (c : RetryConfig) (t : ErrorType) : Nat :=
  (c.policy t).maxRetriesKey.getD 3

/-- Model of `RetryHandler._calculate_wait_time`: `base_delay * 2^attempt` when
exponential backoff is enabled (default), flat `base_delay` otherwise. -/
def calcWaitTime (c : RetryConfig) (t : ErrorType) (attempt : Nat) : ℚ :=
  let p := c.policy t
  let base := p.baseDelaySeconds.getD 30
  if p.exponentialBackoff.getD true then base * 2 ^ attempt else base

/-- A raised Python exception, as far as `RetryHandler` observes it:
`classify_error(str(e), type(e))`. -/
structure Err where
  msg : String
  excType : ExcType
deriving DecidableEq, Repr

/-- Outcome of `execute_with_retry`. `raisedNone` is the post-loop
`raise last_exception` firing with `last_exception = None` (only possible when
the loop body never ran). -/
inductive RunResult (α : Type) where
  | ok (a : α)
  | raised (e : Err)
  | raisedNone
deriving DecidableEq, Repr

/-- Observable behaviour of one `execute_with_retry` call: its outcome, how
many times it invoked the operation, and the `time.sleep` durations in order. -/
structure RunTrace (α : Type) where
  result : RunResult α
  attempts : Nat
  sleeps : List ℚ
deriving DecidableEq, Repr

/-- Body of the `for attempt in range(...)` loop of
`RetryHandler.execute_with_retry`. `remaining` counts loop iterations left;
`lastExc` is `last_exception`. The operation is modelled as a function from
the attempt index to its outcome. -/
def execRetryAux (c : RetryConfig) (op : Nat → Except Err α) :
    Option Err → Nat → Nat → RunTrace α
  | lastExc, _, 0 =>
    ⟨match lastExc with
      | some e => .raised e
      | none => .raisedNone, 0, []⟩
  | _, attempt, remaining + 1 =>
    match op attempt with
    | .ok a => ⟨.ok a, 1, []⟩
    | .error e =>
      let t := classify_error c.classifier e.msg (some e.excType)
      if t = .CODE_BUG then ⟨.raised e, 1, []⟩
      else if !is_retryable t then ⟨.raised e, 1, []⟩
      else if attempt < maxRetriesFor c t - 1 then
        let w := calcWaitTime c t attempt
        let rest := execRetryAux c op (some e) (attempt + 1) remaining
        ⟨rest.result, rest.attempts + 1, w :: rest.sleeps⟩
      else ⟨.raised e, 1, []⟩

/-- Model of `RetryHandler.execute_with_retry(func)`. The loop bound is
`range(self._get_max_retries(ErrorType.SYSTEM))`, exactly as in the source. -/
def execute_with_retry (c : RetryConfig) (op : Nat → Except Err α) : RunTrace α :=
  execRetryAux c op none 0 (maxRetriesFor c .SYSTEM)

/-- A retry-policy configuration whose NETWORK cap (5) exceeds its SYSTEM cap
(2): `retry_policies = \x7b"network_errors": \x7b"max_retries": 5\x7d,
"system_errors": \x7b"max_retries": 2\x7d\x7d`. -/
def cfgNS : RetryConfig :=
  { policies := fun t =>
      match t with
      | .NETWORK => some { maxRetriesKey := some 5 }
      | .SYSTEM => some { maxRetriesKey := some 2 }
      | _ => none }

/-- An exception whose message contains the network keyword `"network"`, so it
classifies as NETWORK. -/
def eNS : Err := ⟨"network glitch", .exception⟩

/-- An operation that raises a NETWORK-classified error on every attempt. -/
def opNetAlways : Nat → Except Err Nat := fun _ => .error eNS

/-- An operation that raises a NETWORK-classified error on attempts 0..3 and
succeeds on attempt 4 (= `max_retries - 1` failures for the NETWORK policy of
`cfgNS`, whose `max_retries` is 5). -/
def opNetThenOk : Nat → Except Err Nat :=
  fun n => if n < 4 then .error eNS else .ok 42

/-- A retry configuration with no `retry_policies` entries at all: every
lookup falls back to the defaults (`max_retries = 3`, `base_delay = 30`,
exponential backoff). -/
def cfgDefault : RetryConfig := { policies := fun _ => none }

/-- An exception matching no keyword and no special exception class, so it
classifies as CODE_BUG. -/
def eBug : Err := ⟨"zzz", .exception⟩

/-- An operation that raises a CODE_BUG-classified error on every attempt. -/
def opBugAlways : Nat → Except Err Nat := fun _ => .error eBug

/-! ## JSON values, Python values and AtomicFileWriter
(src/utils/common.py lines 231-280) -/

/-- A Python `float` value. Every finite IEEE-754 double is exactly a
rational, and Python's `repr`/`float` round-trip (which `json.dump` and
`json.load` use, with `Infinity`/`NaN` literals allowed by default) is
value-exact, so the serialisation layer is modelled value-preservingly; the
distinction the claims turn on is `nan` versus everything else, because
`nan == nan` is false in Python while all other floats compare equal to
themselves. -/
inductive PyFloat where
  | finite (q : ℚ)
  | inf
  | negInf
  | nan
deriving DecidableEq, Repr

/-- Whether a float is the one value that never compares equal to itself. -/
def PyFloat.isNan : PyFloat → Bool
  | .nan => true
  | _ => false

/-- A JSON document, as serialised to disk by `json.dump` and parsed back by
`json.load`: object keys are strings, and integer and float number tokens
are distinguished (`json.load` parses `1` as `int` and `1.0` as `float`). -/
inductive JVal where
  | null
  | bool (b : Bool)
  | int (n : Int)
  | float (f : PyFloat)
  | str (s : String)
  | arr (xs : List JVal)
  | obj (kvs : List (String × JVal))
deriving Repr

/-- A Python dict key: `json.dump` accepts `str`, `int`, `bool`, `None` and
`float` keys, coercing every non-string key to a string (`1` to `"1"`,
`True` to `"true"`, `None` to `"null"`, `1.5` to `"1.5"`). `float` keys are
the one kind not carried here — their coerced string is the double's
shortest round-tripping `repr`, which has no faithful function from the
rational carrier — and they are non-string keys, so every statement below
already excludes them by hypothesis exactly as it excludes `int`, `bool`
and `None` keys. -/
inductive PyKey where
  | s (v : String)
  | i (v : Int)
  | b (v : Bool)
  | noneKey
deriving Repr

/-- A JSON-serialisable Python value: the inputs `json.dump` (and hence
`AtomicFileWriter.write_json`) accepts without raising are `None`, `bool`,
`int`, `float`, `str`, `list`, `tuple` and `dict`; `tuple` values are
serialised as JSON arrays, indistinguishable from `list` values on the
wire. -/
inductive PyVal where
  | pyNone
  | bool (b : Bool)
  | int (n : Int)
  | float (f : PyFloat)
  | str (s : String)
  | list (xs : List PyVal)
  | tuple (xs : List PyVal)
  | dict (kvs : List (PyKey × PyVal))
deriving Repr

/-- How `json.dump` renders a dict key: `str` keys verbatim, `int` keys as
their decimal representation, `bool` keys as `"true"`/`"false"`, `None`
keys as `"null"`. -/
def dumpKey : PyKey → String
  | .s v => v
  | .i n => toString n
  | .b true => "true"
  | .b false => "false"
  | .noneKey => "null"

mutual

/-- Model of `json.dump`: the JSON document actually written for a Python
value. Tuples are written as JSON arrays, exactly like lists. -/
def dump : PyVal → JVal
  | .pyNone => .null
  | .bool b => .bool b
  | .int n => .int n
  | .float f => .float f
  | .str s => .str s
  | .list xs => .arr (dumpList xs)
  | .tuple xs => .arr (dumpList xs)
  | .dict kvs => .obj (dumpKVs kvs)

/-- Model of `json.dump` on a list of values. -/
def dumpList : List PyVal → List JVal
  | [] => []
  | x :: xs => dump x :: dumpList xs

/-- Model of `json.dump` on dict entries (keys coerced to strings). -/
def dumpKVs : List (PyKey × PyVal) → List (String × JVal)
  | [] => []
  | (k, v) :: r => (dumpKey k, dump v) :: dumpKVs r

end

mutual

/-- Model of `json.load`: the Python value parsed back from a JSON document
(object keys always come back as strings, and arrays always come back as
lists, never tuples). -/
def load : JVal → PyVal
  | .null => .pyNone
  | .bool b => .bool b
  | .int n => .int n
  | .float f => .float f
  | .str s => .str s
  | .arr xs => .list (loadList xs)
  | .obj kvs => .dict (loadKVs kvs)

/-- Model of `json.load` on an array. -/
def loadList : List JVal → List PyVal
  | [] => []
  | x :: xs => load x :: loadList xs

/-- Model of `json.load` on object entries. -/
def loadKVs : List (String × JVal) → List (PyKey × PyVal)
  | [] => []
  | (k, v) :: r => (.s k, load v) :: loadKVs r

end

mutual

/-- The values that survive a `json.dump`/`json.load` round trip deep-equal:
at every nesting depth, every dict key is a string (non-string keys are
coerced to strings on write), the value contains no tuple (tuples are
written as arrays and read back as lists, which never compare equal to
tuples in Python) and no NaN float (`nan == nan` is false). Finite floats
and the infinities are allowed: their `repr`-based serialisation is
value-exact and they compare equal to themselves. -/
def SK : PyVal → Bool
  | .pyNone => true
  | .bool _ => true
  | .int _ => true
  | .float f => !f.isNan
  | .str _ => true
  | .list xs => SKList xs
  | .tuple _ => false
  | .dict kvs => SKKVs kvs

/-- Predicate `SK` on a list of values. -/
def SKList : List PyVal → Bool
  | [] => true
  | x :: xs => SK x && SKList xs

/-- Predicate `SK` on dict entries. -/
def SKKVs : List (PyKey × PyVal) → Bool
  | [] => true
  | (k, v) :: r =>
    (match k with
      | .s _ => true
      | _ => false) && SK v && SKKVs r

end

mutual

/-- Whether a fresh structural copy of the value compares Python-`==` equal
to the value (as `json.load`'s freshly built result is compared to the
original, with no object identity shared between the two): every scalar
except NaN equals itself, same-type containers compare element- or
entry-wise, and `nan == nan` is false, so the comparison is true exactly
when no NaN occurs anywhere. This is the deep-equality the claim's
"deep-equal" denotes. -/
def deepEqCopy : PyVal → Bool
  | .pyNone => true
  | .bool _ => true
  | .int _ => true
  | .float f => !f.isNan
  | .str _ => true
  | .list xs => deepEqCopyList xs
  | .tuple xs => deepEqCopyList xs
  | .dict kvs => deepEqCopyKVs kvs

/-- Predicate `deepEqCopy` on a list of values. -/
def deepEqCopyList : List PyVal → Bool
  | [] => true
  | x :: xs => deepEqCopy x && deepEqCopyList xs

/-- Predicate `deepEqCopy` on dict entries (every representable key — a
string, int, bool or `None` — equals its copy). -/
def deepEqCopyKVs : List (PyKey × PyVal) → Bool
  | [] => true
  | (_, v) :: r => deepEqCopy v && deepEqCopyKVs r

end

/-- What a path can hold on disk in the model: a half-written file (the
temporary file mid-`json.dump`) or a completely serialised JSON document. -/
inductive FileContent where
  | partialWrite
  | jsonFile (j : JVal)
deriving Repr

/-- The filesystem, as the two `AtomicFileWriter` operations observe it. -/
def FSState : Type := String → Option FileContent

/-- Point update of the filesystem. -/
def fsSet (fs : FSState) (p : String) (c : Option FileContent) : FSState :=
  fun q => if q = p then c else fs q

/-- The filesystem with no files. -/
def fsEmpty : FSState := fun _ => none

/-- Model of `AtomicFileWriter.write_json(file_path, data)`: write `data` to
`file_path + ".tmp"` (passing through a half-written state), remove any
pre-existing destination, then rename the temp file onto the destination.
Returns every intermediate filesystem state in order, plus the final state. -/
def write_json (fs : FSState) (p : String) (d : PyVal) : List FSState × FSState :=
  let tmp := p ++ ".tmp"
  let s1 := fsSet fs tmp (some .partialWrite)
  let s2 := fsSet fs tmp (some (.jsonFile (dump d)))
  let s3 := if (s2 p).isSome then fsSet s2 p none else s2
  let s4 := fsSet (fsSet s3 tmp none) p (some (.jsonFile (dump d)))
  ([fs, s1, s2, s3, s4], s4)

/-- Model of `AtomicFileWriter.read_json(file_path)`: `None` for a missing file or a
parse failure (a half-written file), the parsed value otherwise. -/
def read_json (fs : FSState) (p : String) : Option PyVal :=
  match fs p with
  | none => none
  | some .partialWrite => none
  | some (.jsonFile j) => some (load j)

/-- The dictionary `\x7b1: "a"\x7d`: JSON-serialisable (an `int` dict key),
accepted by `json.dump` without error. -/
def dIntKey : PyVal := .dict [(.i 1, .str "a")]

/-- The dictionary `\x7b"a": (1, 2)\x7d`: string-keyed and JSON-serialisable
(a tuple value), accepted by `json.dump` without error. -/
def dTuple : PyVal := .dict [(.s "a", .tuple [.int 1, .int 2])]

/-- The dictionary `\x7b"a": float("nan")\x7d`: string-keyed, tuple-free and
JSON-serialisable (written as `\x7b"a": NaN\x7d`, parsed back to a NaN). -/
def dNaN : PyVal := .dict [(.s "a", .float .nan)]

/-! ## AssetVerifier (src/utils/common.py lines 147-229) -/

/-- The slice of `config["asset_verification"]` that `AssetVerifier.__init__`
reads, with its `.get` defaults. -/
structure VerifierConfig where
  minImageSizeKb : ℚ := 1
  minAudioDurationSeconds : ℚ := 1 / 10
  maxFileAgeDays : ℚ := 30

/-- An image file on disk, as far as `verify_image_file` observes it:
`os.path.getsize`, `Image.open(...).size` (`none` when opening raises), and
its age in days. -/
structure ImgFile where
  sizeBytes : Nat
  dims : Option (Nat × Nat)
  ageDays : ℚ
deriving Repr

/-- An audio file on disk, as `verify_audio_file` observes it: size,
`WAVE(...).info.length` (`none` when decoding raises), and age in days. -/
structure AudioFile where
  sizeBytes : Nat
  wavLength : Option ℚ
  ageDays : ℚ
deriving Repr

/-- The failure (or success) reason a verifier returns; one constructor per
`return` site of `verify_image_file` / `verify_audio_file`, carrying the data
interpolated into the source's message string. -/
inductive AVReason where
  | notFound (path : String)
  | tooSmall (sizeKb minKb : ℚ)
  | libMissing
  | lowRes (w h : Nat)
  | tooShort (len minDur : ℚ)
  | tooOld (age : ℚ)
  | verifyFailed
  | validFile
deriving DecidableEq, Repr

/-- Model of `AssetVerifier.verify_image_file(file_path)`: existence, then size in KB
against `min_image_size_kb`, then PIL availability, then decode + minimum
100x100 resolution, then age against `max_file_age_days`. -/
def verify_image_file (cfg : VerifierConfig) (pil : Bool)
    (imgAt : String → Option ImgFile) (path : String) : Bool × AVReason :=
  match imgAt path with
  | none => (false, .notFound path)
  | some f =>
    let kb : ℚ := (f.sizeBytes : ℚ) / 1024
    if kb < cfg.minImageSizeKb then (false, .tooSmall kb cfg.minImageSizeKb)
    else if !pil then (false, .libMissing)
    else
      match f.dims with
      | none => (false, .verifyFailed)
      | some (w, h) =>
        if w < 100 || h < 100 then (false, .lowRes w h)
        else if f.ageDays > cfg.maxFileAgeDays then (false, .tooOld f.ageDays)
        else (true, .validFile)

/-- Model of `AssetVerifier.verify_audio_file(file_path)`: existence, then size in KB
against the hardcoded 1 KB floor, then mutagen availability, then decoded
length against `min_audio_duration_seconds`, then age. -/
def verify_audio_file (cfg : VerifierConfig) (mutagen : Bool)
    (audAt : String → Option AudioFile) (path : String) : Bool × AVReason :=
  match audAt path with
  | none => (false, .notFound path)
  | some f =>
    let kb : ℚ := (f.sizeBytes : ℚ) / 1024
    if kb < 1 then (false, .tooSmall kb 1)
    else if !mutagen then (false, .libMissing)
    else
      match f.wavLength with
      | none => (false, .verifyFailed)
      | some len =>
        if len < cfg.minAudioDurationSeconds then (false, .tooShort len cfg.minAudioDurationSeconds)
        else if f.ageDays > cfg.maxFileAgeDays then (false, .tooOld f.ageDays)
        else (true, .validFile)

/-! ## PreEditorValidator (src/utils/pre_editor_validator.py) -/

/-- One segment of the plan file: whether each mandatory key is present, and
the `segment_id` value when present. -/
structure SegmentData where
  segmentId : Option String
  hasText : Bool
  hasVisualPrompt : Bool

/-- One paragraph: its optional `paragraph_id` and its `segments` list
(`none` when the `segments` key is missing). -/
structure ParagraphData where
  paragraphId : Option String
  segments : Option (List SegmentData)

/-- One story section: its `paragraphs` list (`none` when the key is
missing). -/
structure SectionData where
  paragraphs : Option (List ParagraphData)

/-- The parsed plan file (`project.json`): the `story_structure` mapping in
insertion order (`none` when the key is missing) and presence of the other
required top-level keys. -/
structure PlanData where
  storyStructure : Option (List (String × SectionData))
  hasYoutubeMetadata : Bool
  hasFfmpegSettings : Bool

/-- The state of the plan file on disk: missing, unparsable, unreadable, or
parsed into `PlanData`. -/
inductive PlanFile where
  | missing
  | invalidJson (e : String)
  | readFailed (e : String)
  | parsed (pd : PlanData)

/-- One issue string appended by the validator; one constructor per `append`
site, carrying the interpolated data. -/
inductive Issue where
  | planMissing (path : String)
  | planInvalidJson (e : String)
  | planReadFailed (e : String)
  | missingKey (key : String)
  | missingSection (name : String)
  | missingParagraphs (name : String)
  | missingSegments (pid : String)
  | missingSegKey (key sid : String)
  | audioFolderNotFound (p : String)
  | audioIssue (r : AVReason)
  | imageFolderNotFound (p : String)
  | imageIssue (r : AVReason)
  | musicFolderNotFound (p : String)
  | noMusicFiles (p : String)
deriving DecidableEq, Repr

/-- Issues for one segment: each of `segment_id`, `text`, `visual_prompt`
missing is one issue, labelled with `segment.get("segment_id", "unknown")`. -/
def segmentIssues (seg : SegmentData) : List Issue :=
  let sid := seg.segmentId.getD "unknown"
  (if seg.segmentId.isNone then [.missingSegKey "segment_id" sid] else [])
    ++ (if !seg.hasText then [.missingSegKey "text" sid] else [])
    ++ (if !seg.hasVisualPrompt then [.missingSegKey "visual_prompt" sid] else [])

/-- Issues for one paragraph: a missing `segments` key is one issue (and the
segments are not walked); otherwise each segment's issues in order. -/
def paragraphIssues (par : ParagraphData) : List Issue :=
  match par.segments with
  | none => [.missingSegments (par.paragraphId.getD "unknown")]
  | some segs => segs.foldr (fun s acc => segmentIssues s ++ acc) []

/-- Issues for one required story section. -/
def sectionIssues (name : String) (story : List (String × SectionData)) : List Issue :=
  match story.lookup name with
  | none => [.missingSection name]
  | some sd =>
    match sd.paragraphs with
    | none => [.missingParagraphs name]
    | some pars => pars.foldr (fun p acc => paragraphIssues p ++ acc) []

/-- Model of `PreEditorValidator._validate_project_file`. -/
def validate_project_file (path : String) : PlanFile → Bool × List Issue
  | .missing => (false, [.planMissing path])
  | .invalidJson e => (false, [.planInvalidJson e])
  | .readFailed e => (false, [.planReadFailed e])
  | .parsed pd =>
    let topIssues :=
      (if pd.storyStructure.isNone then [.missingKey "story_structure"] else [])
        ++ (if !pd.hasYoutubeMetadata then [.missingKey "youtube_metadata"] else [])
        ++ (if !pd.hasFfmpegSettings then [.missingKey "ffmpeg_settings"] else [])
    let story := pd.storyStructure.getD []
    let issues := topIssues ++ sectionIssues "intro" story
      ++ sectionIssues "development" story ++ sectionIssues "conclusion" story
    (issues.isEmpty, issues)

/-- Model of `PreEditorValidator._extract_required_assets`: walk every section's
paragraphs' segments, and for every truthy `segment_id` require
`<id>.wav` and `<id>.png`. -/
def extract_required_assets (pd : PlanData) : List String × List String :=
  let allSegs : List SegmentData :=
    (pd.storyStructure.getD []).flatMap
      (fun sv => (sv.2.paragraphs.getD []).flatMap (fun par => par.segments.getD []))
  let sids := (allSegs.filterMap (fun seg => seg.segmentId)).filter (fun s => s ≠ "")
  (sids.map (fun s => s ++ ".wav"), sids.map (fun s => s ++ ".png"))

/-- Model of `os.path.join(folder, name)` (POSIX). -/
def joinPath (folder name : String) : String := folder ++ "/" ++ name

/-- Python `s.endswith(suffix)`. -/
def strEndsWith (s suffix : String) : Bool :=
  suffix.toList.isSuffixOf s.toList

/-- Model of `['.mp3', '.wav', '.m4a', '.aac']`. -/
def musicExtensions : List String := [".mp3", ".wav", ".m4a", ".aac"]

/-- The filesystem as the validator observes it: directory existence, image
and audio files by full path, and the music-folder listing. -/
structure ValFS where
  dirExists : String → Bool
  imgAt : String → Option ImgFile
  audAt : String → Option AudioFile
  listing : String → List String

/-- Everything `PreEditorValidator.validate_all_assets` reads: the
`verify_before_editor` flag (default true), the call's three path arguments,
the configured music folder, the plan file, the verifier configuration,
library availability, and the filesystem. -/
structure ValEnv where
  enabled : Bool := true
  planPath : String
  audioFolder : String
  imageFolder : String
  musicFolderPath : String := "./music"
  plan : PlanFile
  vcfg : VerifierConfig := {}
  pilAvailable : Bool := true
  mutagenAvailable : Bool := true
  fs : ValFS

/-- Model of `PreEditorValidator._validate_audio_assets(required_files, audio_folder)`. -/
def validate_audio_assets (env : ValEnv) (required : List String) : Bool × List Issue :=
  if !env.fs.dirExists env.audioFolder then (false, [.audioFolderNotFound env.audioFolder])
  else
    let issues := required.foldr
      (fun f acc =>
        let r := verify_audio_file env.vcfg env.mutagenAvailable env.fs.audAt
          (joinPath env.audioFolder f)
        if !r.1 then .audioIssue r.2 :: acc else acc) []
    (issues.isEmpty, issues)

/-- Model of `PreEditorValidator._validate_image_assets(required_files, image_folder)`. -/
def validate_image_assets (env : ValEnv) (required : List String) : Bool × List Issue :=
  if !env.fs.dirExists env.imageFolder then (false, [.imageFolderNotFound env.imageFolder])
  else
    let issues := required.foldr
      (fun f acc =>
        let r := verify_image_file env.vcfg env.pilAvailable env.fs.imgAt
          (joinPath env.imageFolder f)
        if !r.1 then .imageIssue r.2 :: acc else acc) []
    (issues.isEmpty, issues)

/-- Model of `PreEditorValidator._validate_music_assets()`. -/
def validate_music_assets (env : ValEnv) : Bool × List Issue :=
  if !env.fs.dirExists env.musicFolderPath then
    (false, [.musicFolderNotFound env.musicFolderPath])
  else
    let musicFiles := (env.fs.listing env.musicFolderPath).filter
      (fun f => musicExtensions.any (fun ext => strEndsWith (strLower f) ext))
    if musicFiles.isEmpty then (false, [.noMusicFiles env.musicFolderPath])
    else (true, [])

/-- Model of `PreEditorValidator.validate_all_assets(project_file_path, audio_folder,
image_folder)`: the disabled-in-config early exit, the short-circuiting plan
check, the re-read of the plan, then the three accumulating asset checks. -/
def validate_all_assets (env : ValEnv) : Bool × List Issue :=
  if !env.enabled then (true, [])
  else
    let pr := validate_project_file env.planPath env.plan
    if !pr.1 then (false, pr.2)
    else
      match env.plan with
      | .parsed pd =>
        let req := extract_required_assets pd
        let ar := validate_audio_assets env req.1
        let ir := validate_image_assets env req.2
        let mr := validate_music_assets env
        let issues := (if !ar.1 then ar.2 else []) ++ (if !ir.1 then ir.2 else [])
          ++ (if !mr.1 then mr.2 else [])
        (issues.isEmpty, issues)
      | _ => (false, [.planReadFailed "project file unreadable"])

/-- Modelled from the claim's words, for comparison with
`validate_all_assets`: short-circuit only on the plan-file check, then run
the audio, image and music checks unconditionally, accumulate every issue,
and succeed exactly when no issue accumulated. -/
def claimedValidateAll (env : ValEnv) : Bool × List Issue :=
  let pr := validate_project_file env.planPath env.plan
  if !pr.1 then (false, pr.2)
  else
    match env.plan with
    | .parsed pd =>
      let req := extract_required_assets pd
      let ar := validate_audio_assets env req.1
      let ir := validate_image_assets env req.2
      let mr := validate_music_assets env
      let issues := (if !ar.1 then ar.2 else []) ++ (if !ir.1 then ir.2 else [])
        ++ (if !mr.1 then mr.2 else [])
      (issues.isEmpty, issues)
    | _ => (false, [.planReadFailed "project file unreadable"])

/-! ## Producer pipeline orchestrator (src/producer.py lines 142-459) -/

/-- Model of `Producer.verify_file_integrity`: true outright when the loaded
`file_hashes` mapping is empty (falsy), otherwise every recorded path must
exist and hash to its recorded digest. -/
def verify_file_integrity (hashes : List (String × String))
    (fileExists : String → Bool) (fileHash : String → Option String) : Bool :=
  if hashes.isEmpty then true
  else hashes.all (fun ph => fileExists ph.1 && (fileHash ph.1 == some ph.2))

/-- Model of `Producer.is_step_complete(step_name)`: membership in
`status["completed_steps"]`. -/
def is_step_complete (status : List String) (stepName : String) : Bool :=
  stepName ∈ status

/-- Externally observable orchestrator actions: invoking an external stage
module, calling the validation gate, prompting for a reset, and resetting the
project folder. -/
inductive Event where
  | stage (m : String)
  | gate
  | resetPrompt
  | reset
deriving DecidableEq, Repr

/-- Everything one `run_pipeline` call reads from its surroundings: whether
project setup succeeds, the mode, the operator's answer at the reset prompt,
the loaded `status.json` and `integrity.json` contents, the filesystem, the
outcome of each external module run (`run_module_with_retry`), the validator's
environment, and the presence of `service_account.json`. -/
structure Env where
  setupOk : Bool := true
  isManual : Bool := true
  resetAnswer : String := ""
  status0 : List String := []
  fileHashes0 : List (String × String) := []
  fileExists : String → Bool
  fileHash : String → Option String
  stageOk : String → Bool
  valEnv : ValEnv
  serviceAccountExists : Bool := true

/-- Step 6 (upload): skip when `"upload"` is already complete; otherwise the
`service_account.json` check raises before the module is invoked; otherwise
invoke the uploader. -/
def stepUpload (env : Env) (st : List String) : List Event :=
  if is_step_complete st "upload" then []
  else if !env.serviceAccountExists then []
  else [.stage "uploader"]

/-- Step 5 (editing): skip on membership, else invoke the editor and abort on
its failure. -/
def stepEditing (env : Env) (st : List String) : List Event :=
  if is_step_complete st "editing" then stepUpload env st
  else .stage "editor" ::
    (if env.stageOk "editor" then stepUpload env (st ++ ["editing"]) else [])

/-- Step 4, the validation gate: always call `validate_all_assets`; on any
validation failure raise `PreEditorValidationError`, aborting before the
editing step. -/
def gatePhase (env : Env) (st : List String) : List Event :=
  .gate ::
    (if (validate_all_assets env.valEnv).1 then stepEditing env st else [])

/-- Step 3 (asset production): skip on membership, else invoke the narrator
then the image director, aborting on either failure. -/
def stepAssets (env : Env) (st : List String) : List Event :=
  if is_step_complete st "asset_production" then gatePhase env st
  else .stage "narrator" ::
    (if env.stageOk "narrator" then
      .stage "image_director" ::
        (if env.stageOk "image_director" then
          gatePhase env (st ++ ["asset_production"]) else [])
    else [])

/-- Step 2 (direction). -/
def stepDirection (env : Env) (st : List String) : List Event :=
  if is_step_complete st "direction" then stepAssets env st
  else .stage "director" ::
    (if env.stageOk "director" then stepAssets env (st ++ ["direction"]) else [])

/-- Step 1 (scriptwriting). -/
def stepScript (env : Env) (st : List String) : List Event :=
  if is_step_complete st "scriptwriting" then stepDirection env st
  else .stage "scriptwriter" ::
    (if env.stageOk "scriptwriter" then stepDirection env (st ++ ["scriptwriting"]) else [])

/-- Model of `Producer.run_pipeline`: setup, load status and integrity records, the
integrity-triggered reset decision (prompted in manual mode, forced in
scheduled mode), then the fixed step sequence. -/
def run_pipeline (env : Env) : List Event :=
  if !env.setupOk then []
  else if !env.status0.isEmpty
      && !verify_file_integrity env.fileHashes0 env.fileExists env.fileHash then
    if env.isManual then
      if strLower env.resetAnswer = "y" then .resetPrompt :: .reset :: stepScript env []
      else [.resetPrompt]
    else .reset :: stepScript env []
  else stepScript env env.status0

/-- The fixed step sequence of the orchestrator. -/
def stepNames : List String :=
  ["scriptwriting", "direction", "asset_production", "editing", "upload"]

/-- The external stage modules each step invokes. -/
def modulesOf : String → List String
  | "scriptwriting" => ["scriptwriter"]
  | "direction" => ["director"]
  | "asset_production" => ["narrator", "image_director"]
  | "editing" => ["editor"]
  | "upload" => ["uploader"]
  | _ => []

/-! ## Concrete fixtures for witnesses and counterexamples -/

/-- A filesystem with no asset folders and no files. -/
def fsBare : ValFS :=
  { dirExists := fun _ => false
    imgAt := fun _ => none
    audAt := fun _ => none
    listing := fun _ => [] }

/-- A validator environment whose plan file is missing (the plan check
fails) and whose validation flag is on. -/
def valEnvPlanMissing : ValEnv :=
  { planPath := "channels/c/p/project.json"
    audioFolder := "channels/c/p/audio"
    imageFolder := "channels/c/p/images"
    plan := .missing
    fs := fsBare }

/-- The same environment with `verify_before_editor` disabled in the config. -/
def valEnvDisabled : ValEnv :=
  { valEnvPlanMissing with enabled := false }

/-- A resumed project: two steps recorded complete, one recorded hash that
still matches the file on disk, every external stage able to succeed. -/
def envResume : Env :=
  { status0 := ["scriptwriting", "direction"]
    fileHashes0 := [("channels/c/p/script.txt", "abc123")]
    fileExists := fun p => p = "channels/c/p/script.txt"
    fileHash := fun p => if p = "channels/c/p/script.txt" then some "abc123" else none
    stageOk := fun _ => true
    valEnv := valEnvPlanMissing }

/-- A resumed project whose integrity record is empty while its status lists
a completed step, and whose files have all been deleted. -/
def envEmptyHashes : Env :=
  { status0 := ["scriptwriting"]
    fileHashes0 := []
    fileExists := fun _ => false
    fileHash := fun _ => none
    stageOk := fun _ => true
    valEnv := valEnvPlanMissing }

/-- An image filesystem with exactly one file, an existing zero-byte PNG. -/
def imgFSW : String → Option ImgFile :=
  fun p => if p = "images/seg1.png" then some ⟨0, some (512, 512), 0⟩ else none

/-- A string-keyed status dictionary, as the orchestrator persists. -/
def dStr : PyVal :=
  .dict [(.s "completed_steps", .list [.str "scriptwriting"])]

/-! ## Helper lemmas -/

theorem is_step_complete_true_iff (st : List String) (n : String) :
    is_step_complete st n = true ↔ n ∈ st := by
  simp [is_step_complete]

theorem mem_stepUpload {env : Env} {st : List String} {e : Event}
    (h : e ∈ stepUpload env st) : e = .stage "uploader" := by
  unfold stepUpload at h
  split at h
  · simp at h
  · split at h
    · simp at h
    · simpa using h

theorem mem_stepEditing {env : Env} {st : List String} {e : Event}
    (h : e ∈ stepEditing env st) : e = .stage "editor" ∨ e = .stage "uploader" := by
  unfold stepEditing at h
  split at h
  · exact .inr (mem_stepUpload h)
  · rcases List.mem_cons.mp h with h | h
    · exact .inl h
    · split at h
      · exact .inr (mem_stepUpload h)
      · simp at h

theorem mem_gatePhase {env : Env} {st : List String} {e : Event}
    (h : e ∈ gatePhase env st) :
    e = .gate ∨ e = .stage "editor" ∨ e = .stage "uploader" := by
  unfold gatePhase at h
  rcases List.mem_cons.mp h with h | h
  · exact .inl h
  · split at h
    · exact .inr (mem_stepEditing h)
    · simp at h

theorem mem_stepAssets {env : Env} {st : List String} {e : Event}
    (h : e ∈ stepAssets env st) :
    e = .stage "narrator" ∨ e = .stage "image_director" ∨ e = .gate
      ∨ e = .stage "editor" ∨ e = .stage "uploader" := by
  unfold stepAssets at h
  split at h
  · have := mem_gatePhase h; tauto
  · rcases List.mem_cons.mp h with h | h
    · exact .inl h
    · split at h
      · rcases List.mem_cons.mp h with h | h
        · exact .inr (.inl h)
        · split at h
          · have := mem_gatePhase h; tauto
          · simp at h
      · simp at h

theorem mem_stepDirection {env : Env} {st : List String} {e : Event}
    (h : e ∈ stepDirection env st) :
    e = .stage "director" ∨ e = .stage "narrator" ∨ e = .stage "image_director"
      ∨ e = .gate ∨ e = .stage "editor" ∨ e = .stage "uploader" := by
  unfold stepDirection at h
  split at h
  · have := mem_stepAssets h; tauto
  · rcases List.mem_cons.mp h with h | h
    · exact .inl h
    · split at h
      · have := mem_stepAssets h; tauto
      · simp at h

theorem mem_stepScript {env : Env} {st : List String} {e : Event}
    (h : e ∈ stepScript env st) :
    e = .stage "scriptwriter" ∨ e = .stage "director" ∨ e = .stage "narrator"
      ∨ e = .stage "image_director" ∨ e = .gate ∨ e = .stage "editor"
      ∨ e = .stage "uploader" := by
  unfold stepScript at h
  split at h
  · have := mem_stepDirection h; tauto
  · rcases List.mem_cons.mp h with h | h
    · exact .inl h
    · split at h
      · have := mem_stepDirection h; tauto
      · simp at h

theorem editor_mem_gatePhase {env : Env} {st : List String}
    (h : Event.stage "editor" ∈ gatePhase env st) :
    (validate_all_assets env.valEnv).1 = true := by
  unfold gatePhase at h
  rcases List.mem_cons.mp h with h | h
  · simp at h
  · split at h
    · assumption
    · simp at h

theorem editor_mem_stepAssets {env : Env} {st : List String}
    (h : Event.stage "editor" ∈ stepAssets env st) :
    (validate_all_assets env.valEnv).1 = true := by
  unfold stepAssets at h
  split at h
  · exact editor_mem_gatePhase h
  · rcases List.mem_cons.mp h with h | h
    · simp at h
    · split at h
      · rcases List.mem_cons.mp h with h | h
        · simp at h
        · split at h
          · exact editor_mem_gatePhase h
          · simp at h
      · simp at h

theorem editor_mem_stepDirection {env : Env} {st : List String}
    (h : Event.stage "editor" ∈ stepDirection env st) :
    (validate_all_assets env.valEnv).1 = true := by
  unfold stepDirection at h
  split at h
  · exact editor_mem_stepAssets h
  · rcases List.mem_cons.mp h with h | h
    · simp at h
    · split at h
      · exact editor_mem_stepAssets h
      · simp at h

theorem editor_mem_stepScript {env : Env} {st : List String}
    (h : Event.stage "editor" ∈ stepScript env st) :
    (validate_all_assets env.valEnv).1 = true := by
  unfold stepScript at h
  split at h
  · exact editor_mem_stepDirection h
  · rcases List.mem_cons.mp h with h | h
    · simp at h
    · split at h
      · exact editor_mem_stepDirection h
      · simp at h

theorem notin_gatePhase_of {env : Env} {m n : String}
    (H : ∀ st, n ∈ st → Event.stage m ∉ stepEditing env st) :
    ∀ st, n ∈ st → Event.stage m ∉ gatePhase env st := by
  intro st h hc
  unfold gatePhase at hc
  rcases List.mem_cons.mp hc with hc | hc
  · simp at hc
  · split at hc
    · exact H st h hc
    · simp at hc

theorem notin_stepAssets_of {env : Env} {m n : String}
    (hm1 : m ≠ "narrator") (hm2 : m ≠ "image_director")
    (H : ∀ st, n ∈ st → Event.stage m ∉ gatePhase env st) :
    ∀ st, n ∈ st → Event.stage m ∉ stepAssets env st := by
  intro st h hc
  unfold stepAssets at hc
  split at hc
  · exact H st h hc
  · rcases List.mem_cons.mp hc with hc | hc
    · exact hm1 (by injection hc)
    · split at hc
      · rcases List.mem_cons.mp hc with hc | hc
        · exact hm2 (by injection hc)
        · split at hc
          · exact H _ (List.mem_append_left _ h) hc
          · simp at hc
      · simp at hc

theorem notin_stepDirection_of {env : Env} {m n : String} (hm : m ≠ "director")
    (H : ∀ st, n ∈ st → Event.stage m ∉ stepAssets env st) :
    ∀ st, n ∈ st → Event.stage m ∉ stepDirection env st := by
  intro st h hc
  unfold stepDirection at hc
  split at hc
  · exact H st h hc
  · rcases List.mem_cons.mp hc with hc | hc
    · exact hm (by injection hc)
    · split at hc
      · exact H _ (List.mem_append_left _ h) hc
      · simp at hc

theorem notin_stepScript_of {env : Env} {m n : String} (hm : m ≠ "scriptwriter")
    (H : ∀ st, n ∈ st → Event.stage m ∉ stepDirection env st) :
    ∀ st, n ∈ st → Event.stage m ∉ stepScript env st := by
  intro st h hc
  unfold stepScript at hc
  split at hc
  · exact H st h hc
  · rcases List.mem_cons.mp hc with hc | hc
    · exact hm (by injection hc)
    · split at hc
      · exact H _ (List.mem_append_left _ h) hc
      · simp at hc

theorem base_upload {env : Env} :
    ∀ st, "upload" ∈ st → Event.stage "uploader" ∉ stepUpload env st := by
  intro st h
  simp [stepUpload, is_step_complete, h]

theorem base_editing {env : Env} :
    ∀ st, "editing" ∈ st → Event.stage "editor" ∉ stepEditing env st := by
  intro st h hc
  unfold stepEditing at hc
  split at hc
  · have := mem_stepUpload hc; simp at this
  · rename_i hcond
    exact hcond (by simpa [is_step_complete] using h)

theorem base_assets {env : Env} {m : String}
    (hm : m = "narrator" ∨ m = "image_director") :
    ∀ st, "asset_production" ∈ st → Event.stage m ∉ stepAssets env st := by
  intro st h hc
  unfold stepAssets at hc
  split at hc
  · rcases mem_gatePhase hc with h1 | h1 | h1 <;> rcases hm with hm | hm <;>
      subst hm <;> simp at h1
  · rename_i hcond
    exact hcond (by simpa [is_step_complete] using h)

theorem base_direction {env : Env} :
    ∀ st, "direction" ∈ st → Event.stage "director" ∉ stepDirection env st := by
  intro st h hc
  unfold stepDirection at hc
  split at hc
  · rcases mem_stepAssets hc with h1 | h1 | h1 | h1 | h1 <;> simp at h1
  · rename_i hcond
    exact hcond (by simpa [is_step_complete] using h)

theorem base_script {env : Env} :
    ∀ st, "scriptwriting" ∈ st → Event.stage "scriptwriter" ∉ stepScript env st := by
  intro st h hc
  unfold stepScript at hc
  split at hc
  · rcases mem_stepDirection hc with h1 | h1 | h1 | h1 | h1 | h1 <;> simp at h1
  · rename_i hcond
    exact hcond (by simpa [is_step_complete] using h)

/-- A step recorded in `completed_steps` never has any of its stage modules
invoked by the step chain. -/
theorem module_skip_stepScript (env : Env) (step m : String)
    (hstep : step ∈ stepNames) (hm : m ∈ modulesOf step) :
    ∀ st, step ∈ st → Event.stage m ∉ stepScript env st := by
  have hstep5 : step = "scriptwriting" ∨ step = "direction" ∨ step = "asset_production"
      ∨ step = "editing" ∨ step = "upload" := by
    simpa [stepNames] using hstep
  rcases hstep5 with h | h | h | h | h <;> subst h
  · have hm1 : m = "scriptwriter" := by simpa [modulesOf] using hm
    subst hm1
    exact base_script
  · have hm1 : m = "director" := by simpa [modulesOf] using hm
    subst hm1
    exact notin_stepScript_of (by decide) base_direction
  · have hm1 : m = "narrator" ∨ m = "image_director" := by simpa [modulesOf] using hm
    have hne : m ≠ "director" ∧ m ≠ "scriptwriter" := by
      rcases hm1 with h | h <;> subst h <;> exact ⟨by decide, by decide⟩
    exact notin_stepScript_of hne.2 (notin_stepDirection_of hne.1 (base_assets hm1))
  · have hm1 : m = "editor" := by simpa [modulesOf] using hm
    subst hm1
    exact notin_stepScript_of (by decide)
      (notin_stepDirection_of (by decide)
        (notin_stepAssets_of (by decide) (by decide)
          (notin_gatePhase_of base_editing)))
  · have hm1 : m = "uploader" := by simpa [modulesOf] using hm
    subst hm1
    refine notin_stepScript_of (by decide)
      (notin_stepDirection_of (by decide)
        (notin_stepAssets_of (by decide) (by decide)
          (notin_gatePhase_of ?_)))
    intro st h hc
    unfold stepEditing at hc
    split at hc
    · exact base_upload st h hc
    · rcases List.mem_cons.mp hc with hc | hc
      · simp at hc
      · split at hc
        · exact base_upload _ (List.mem_append_left _ h) hc
        · simp at hc

theorem resetPrompt_notin_stepScript {env : Env} {st : List String} :
    Event.resetPrompt ∉ stepScript env st := by
  intro hc
  rcases mem_stepScript hc with h | h | h | h | h | h | h <;> exact absurd h (by decide)

theorem reset_notin_stepScript {env : Env} {st : List String} :
    Event.reset ∉ stepScript env st := by
  intro hc
  rcases mem_stepScript hc with h | h | h | h | h | h | h <;> exact absurd h (by decide)

theorem gate_mem_stepAssets {env : Env} (h5 : env.stageOk "narrator" = true)
    (h6 : env.stageOk "image_director" = true) :
    ∀ st, Event.gate ∈ stepAssets env st := by
  intro st
  unfold stepAssets
  split
  · exact List.mem_cons_self _ _
  · simp [h5, h6, gatePhase]

theorem gate_mem_stepDirection {env : Env} (h4 : env.stageOk "director" = true)
    (h5 : env.stageOk "narrator" = true) (h6 : env.stageOk "image_director" = true) :
    ∀ st, Event.gate ∈ stepDirection env st := by
  intro st
  unfold stepDirection
  split
  · exact gate_mem_stepAssets h5 h6 st
  · exact List.mem_cons_of_mem _ (gate_mem_stepAssets h5 h6 _)

theorem gate_mem_stepScript {env : Env} (h3 : env.stageOk "scriptwriter" = true)
    (h4 : env.stageOk "director" = true) (h5 : env.stageOk "narrator" = true)
    (h6 : env.stageOk "image_director" = true) :
    ∀ st, Event.gate ∈ stepScript env st := by
  intro st
  unfold stepScript
  split
  · exact gate_mem_stepDirection h4 h5 h6 st
  · exact List.mem_cons_of_mem _ (gate_mem_stepDirection h4 h5 h6 _)

/-- When `status` is empty or the integrity check passes, `run_pipeline` goes
straight into the step chain with the loaded status. -/
theorem run_pipeline_no_reset {env : Env} (hs : env.setupOk = true)
    (hi : env.status0.isEmpty = true
      ∨ verify_file_integrity env.fileHashes0 env.fileExists env.fileHash = true) :
    run_pipeline env = stepScript env env.status0 := by
  rcases hi with hi | hi <;> simp [run_pipeline, hs, hi]

mutual

theorem load_dump : (v : PyVal) → SK v = true → load (dump v) = v
  | .pyNone, _ => rfl
  | .bool _, _ => rfl
  | .int _, _ => rfl
  | .float _, _ => rfl
  | .str _, _ => rfl
  | .list xs, h => by
    have hx : SKList xs = true := by simpa [SK] using h
    simp [dump, load, loadList_dumpList xs hx]
  | .tuple xs, h => by
    simp [SK] at h
  | .dict kvs, h => by
    have hx : SKKVs kvs = true := by simpa [SK] using h
    simp [dump, load, loadKVs_dumpKVs kvs hx]

theorem loadList_dumpList : (xs : List PyVal) → SKList xs = true →
    loadList (dumpList xs) = xs
  | [], _ => rfl
  | x :: xs, h => by
    have hx : SK x = true ∧ SKList xs = true := by
      simpa [SKList, Bool.and_eq_true] using h
    simp [dumpList, loadList, load_dump x hx.1, loadList_dumpList xs hx.2]

theorem loadKVs_dumpKVs : (kvs : List (PyKey × PyVal)) → SKKVs kvs = true →
    loadKVs (dumpKVs kvs) = kvs
  | [], _ => rfl
  | (.s k, v) :: r, h => by
    have hx : SK v = true ∧ SKKVs r = true := by
      simpa [SKKVs, Bool.and_eq_true] using h
    simp [dumpKVs, dumpKey, loadKVs, load_dump v hx.1, loadKVs_dumpKVs r hx.2]
  | (.i n, v) :: r, h => by
    simp [SKKVs] at h
  | (.b b, v) :: r, h => by
    simp [SKKVs] at h
  | (.noneKey, v) :: r, h => by
    simp [SKKVs] at h

end

theorem validate_project_file_fst (path : String) (pf : PlanFile) :
    (validate_project_file path pf).1 = (validate_project_file path pf).2.isEmpty := by
  cases pf <;> simp [validate_project_file]

theorem validate_all_assets_fst (env : ValEnv) :
    (validate_all_assets env).1 = (validate_all_assets env).2.isEmpty := by
  have h1 := validate_project_file_fst env.planPath env.plan
  unfold validate_all_assets
  split
  · rfl
  · rcases hpr : validate_project_file env.planPath env.plan with ⟨b, iss⟩
    rw [hpr] at h1
    simp only [hpr]
    cases b with
    | false => simp_all
    | true =>
      simp only [Bool.not_true]
      split
      · rename_i hcontra
        exact absurd hcontra (by simp)
      · split
        · simp
        · rename_i harm
          rcases henv : env.plan with _ | e | e | pd
          · rw [henv] at hpr; simp [validate_project_file] at hpr
          · rw [henv] at hpr; simp [validate_project_file] at hpr
          · rw [henv] at hpr; simp [validate_project_file] at hpr
          · exact (harm pd henv).elim

theorem editor_mem_run {env : Env}
    (hc : Event.stage "editor" ∈ run_pipeline env) :
    (validate_all_assets env.valEnv).1 = true := by
  unfold run_pipeline at hc
  split at hc
  · exact absurd hc (by simp)
  · split at hc
    · split at hc
      · split at hc
        · rcases List.mem_cons.mp hc with h | h
          · exact absurd h (by decide)
          · rcases List.mem_cons.mp h with h | h
            · exact absurd h (by decide)
            · exact editor_mem_stepScript h
        · exact absurd hc (by decide)
      · rcases List.mem_cons.mp hc with h | h
        · exact absurd h (by decide)
        · exact editor_mem_stepScript h
    · exact editor_mem_stepScript hc

theorem setupOk_false_of_ne {env : Env} (hs : ¬env.setupOk = true) :
    env.setupOk = false := by
  cases h : env.setupOk
  · rfl
  · exact absurd h hs

/-! ## Claim theorems -/

/-- C4 counterexample: with the default classifier configuration and the
message `"boom"` — whose lower-casing contains no quota, network, disk or
system keyword — `classify_error` with exception type `FileNotFoundError`
returns DISK, not CONFIG: `FileNotFoundError` is a subclass of `OSError`, so
the OS/IO/permission mapping fires before the CONFIG mapping ever could. -/
theorem c4_fnf_classifies_disk_counterexample :
    noKeywordMatch {} "boom" = true
      ∧ classify_error {} "boom" (some .fileNotFoundError) = .DISK
      ∧ classify_error {} "boom" (some .fileNotFoundError) ≠ .CONFIG := by
  decide

/-- C4 (amended): for every classifier configuration and every message whose
lower-cased text matches none of the quota, network, disk or system keyword
lists, `classify_error` with exception type `FileNotFoundError` returns DISK
(a retryable type), because `FileNotFoundError` is a subclass of `OSError`
and the OS/IO/permission mapping is checked before the CONFIG mapping. -/
theorem c4_fnf_classifies_disk (cc : ClassifierConfig) (msg : String)
    (h : noKeywordMatch cc msg = true) :
    classify_error cc msg (some .fileNotFoundError) = .DISK := by
  unfold noKeywordMatch at h
  simp only [Bool.and_eq_true, Bool.not_eq_true'] at h
  obtain ⟨⟨⟨h1, h2⟩, h3⟩, h4⟩ := h
  unfold classify_error
  simp only [h1, h2, h3, h4]
  decide

/-- C4 witness: the amended theorem at the concrete message `"boom"`. -/
theorem c4_fnf_classifies_disk_witness :
    classify_error {} "boom" (some .fileNotFoundError) = .DISK :=
  c4_fnf_classifies_disk {} "boom" (by decide)

/-- C5: for every retry configuration whose SYSTEM attempt cap is at least 1
and every operation that on every attempt raises an error classified as
CODE_BUG, `execute_with_retry` invokes the operation exactly once, performs
no sleep, and re-raises that first exception. -/
theorem c5_code_bug_single_attempt {α : Type} (c : RetryConfig)
    (op : Nat → Except Err α) (hS : 1 ≤ maxRetriesFor c .SYSTEM)
    (hop : ∀ n, ∃ e, op n = .error e
      ∧ classify_error c.classifier e.msg (some e.excType) = .CODE_BUG) :
    ∃ e, op 0 = .error e ∧ execute_with_retry c op = ⟨.raised e, 1, []⟩ := by
  obtain ⟨e, he, hcls⟩ := hop 0
  obtain ⟨k, hk⟩ : ∃ k, maxRetriesFor c .SYSTEM = k + 1 := by
    rcases Nat.exists_eq_add_of_le hS with ⟨k, hk⟩
    exact ⟨k, by omega⟩
  refine ⟨e, he, ?_⟩
  unfold execute_with_retry
  rw [hk]
  simp [execRetryAux, he, hcls]

/-- C5 witness: the default configuration (SYSTEM cap 3) and an operation
raising an unclassifiable `"zzz"` error on every attempt: one attempt, no
sleep, the exception re-raised. -/
theorem c5_code_bug_single_attempt_witness :
    opBugAlways 0 = .error eBug
      ∧ execute_with_retry cfgDefault opBugAlways = ⟨.raised eBug, 1, []⟩ := by
  obtain ⟨e, he, hr⟩ := c5_code_bug_single_attempt cfgDefault opBugAlways
    (by decide) (fun n => ⟨eBug, rfl, by decide⟩)
  have he2 : (Except.error eBug : Except Err Nat) = .error e := he
  injection he2 with h3
  rw [← h3] at hr
  exact ⟨rfl, hr⟩

/-- C1 (code-bug evidence): under a configuration whose NETWORK cap is 5 and
SYSTEM cap is 2, an operation that always raises a NETWORK-classified error
is attempted only 2 times — not the NETWORK policy's 5 — with a backoff
sleep after the second (final) attempt as well, because the loop in
`execute_with_retry` is bounded by the SYSTEM policy's `max_retries` and the
post-loop `raise last_exception` fires. -/
theorem c1_system_cap_truncates_retries :
    maxRetriesFor cfgNS .NETWORK = 5 ∧ maxRetriesFor cfgNS .SYSTEM = 2
      ∧ classify_error cfgNS.classifier eNS.msg (some eNS.excType) = .NETWORK
      ∧ execute_with_retry cfgNS opNetAlways = ⟨.raised eNS, 2, [30, 60]⟩ := by
  have hc : classify_error cfgNS.classifier eNS.msg (some eNS.excType) = .NETWORK := by
    decide
  have hm : maxRetriesFor cfgNS .SYSTEM = 2 := by decide
  have hn : maxRetriesFor cfgNS .NETWORK = 5 := by decide
  have hw0 : calcWaitTime cfgNS .NETWORK 0 = 30 := by
    simp [calcWaitTime, RetryConfig.policy, cfgNS]
  have hw1 : calcWaitTime cfgNS .NETWORK 1 = 60 := by
    simp [calcWaitTime, RetryConfig.policy, cfgNS]
    norm_num
  refine ⟨hn, hm, hc, ?_⟩
  simp only [execute_with_retry, hm]
  simp only [execRetryAux, opNetAlways]
  rw [hc]
  simp [hn, hw0, hw1, is_retryable]

/-- C6 (code-bug evidence): under the same configuration (NETWORK cap 5,
SYSTEM cap 2), an operation that raises a NETWORK-classified error on its
first 4 = `max_retries - 1` attempts and would succeed on the 5th never
reaches the success: `execute_with_retry` stops after the SYSTEM-bounded 2
attempts and re-raises the network error, instead of returning the success
result after the configured backoff schedule. -/
theorem c6_success_attempt_unreachable :
    maxRetriesFor cfgNS .NETWORK = 5
      ∧ opNetThenOk 0 = .error eNS ∧ opNetThenOk 4 = .ok 42
      ∧ execute_with_retry cfgNS opNetThenOk = ⟨.raised eNS, 2, [30, 60]⟩ := by
  have hc : classify_error cfgNS.classifier eNS.msg (some eNS.excType) = .NETWORK := by
    decide
  have hm : maxRetriesFor cfgNS .SYSTEM = 2 := by decide
  have hn : maxRetriesFor cfgNS .NETWORK = 5 := by decide
  have hw0 : calcWaitTime cfgNS .NETWORK 0 = 30 := by
    simp [calcWaitTime, RetryConfig.policy, cfgNS]
  have hw1 : calcWaitTime cfgNS .NETWORK 1 = 60 := by
    simp [calcWaitTime, RetryConfig.policy, cfgNS]
    norm_num
  have hop0 : opNetThenOk 0 = .error eNS := rfl
  have hop1 : opNetThenOk 1 = .error eNS := rfl
  refine ⟨hn, rfl, rfl, ?_⟩
  simp only [execute_with_retry, hm]
  simp only [execRetryAux, Nat.zero_add, hop0, hop1]
  rw [hc]
  simp [hn, hw0, hw1, is_retryable]

/-- C9: under the default verification configuration, `verify_image_file`
returns false with a file-not-found reason for every path that does not
exist, and false with a too-small reason for every existing zero-byte
file. -/
theorem c9_verify_image_missing_and_empty (imgAt : String → Option ImgFile)
    (path : String) (pil : Bool) :
    (imgAt path = none →
      verify_image_file {} pil imgAt path = (false, .notFound path))
      ∧ (∀ f, imgAt path = some f → f.sizeBytes = 0 →
          verify_image_file {} pil imgAt path = (false, .tooSmall 0 1)) := by
  constructor
  · intro h
    simp [verify_image_file, h]
  · intro f hf h0
    simp only [verify_image_file, hf, h0]
    norm_num

/-- C9 witness: a nonexistent path and an existing zero-byte image. -/
theorem c9_verify_image_missing_and_empty_witness :
    verify_image_file {} true imgFSW "images/missing.png"
        = (false, .notFound "images/missing.png")
      ∧ verify_image_file {} true imgFSW "images/seg1.png" = (false, .tooSmall 0 1) :=
  ⟨(c9_verify_image_missing_and_empty imgFSW "images/missing.png" true).1 rfl,
   (c9_verify_image_missing_and_empty imgFSW "images/seg1.png" true).2
     ⟨0, some (512, 512), 0⟩ rfl rfl⟩

/-- C2: on every run whose setup succeeds, whose integrity decision does not
abort (status empty, or hashes match, or scheduled mode, or the operator
confirms the reset), and whose pre-gate stages succeed when invoked, the
validation gate is executed no matter what `StepStatus` contains; and
whenever the gate returns any issue, the editor stage is never invoked. -/
theorem c2_gate_always_guards_editor (env : Env) (hs : env.setupOk = true)
    (hreset : env.status0.isEmpty = true
      ∨ verify_file_integrity env.fileHashes0 env.fileExists env.fileHash = true
      ∨ env.isManual = false ∨ strLower env.resetAnswer = "y")
    (h3 : env.stageOk "scriptwriter" = true) (h4 : env.stageOk "director" = true)
    (h5 : env.stageOk "narrator" = true) (h6 : env.stageOk "image_director" = true) :
    Event.gate ∈ run_pipeline env
      ∧ ((validate_all_assets env.valEnv).2 ≠ []
          → Event.stage "editor" ∉ run_pipeline env) := by
  have hgate := gate_mem_stepScript h3 h4 h5 h6
  constructor
  · by_cases hcond : (!env.status0.isEmpty
        && !verify_file_integrity env.fileHashes0 env.fileExists env.fileHash) = true
    · rcases hreset with hi | hi | hi | hi
      · exact absurd hcond (by simp [hi])
      · exact absurd hcond (by simp [hi])
      · simp only [run_pipeline, hs, hcond, hi]
        simp only [Bool.not_true, Bool.false_eq_true, if_false, if_true]
        exact List.mem_cons_of_mem _ (hgate _)
      · by_cases hman : env.isManual = true
        · simp only [run_pipeline, hs, hcond, hman, hi]
          simp only [Bool.not_true, Bool.false_eq_true, if_false, if_true]
          exact List.mem_cons_of_mem _ (List.mem_cons_of_mem _ (hgate _))
        · have hman' : env.isManual = false := by
            cases h : env.isManual
            · rfl
            · exact absurd h hman
          simp only [run_pipeline, hs, hcond, hman']
          simp only [Bool.not_true, Bool.false_eq_true, if_false, if_true]
          exact List.mem_cons_of_mem _ (hgate _)
    · simp only [run_pipeline, hs, Bool.not_true, Bool.false_eq_true, if_false]
      rw [if_neg hcond]
      exact hgate _
  · intro hne hc
    have hv := editor_mem_run hc
    have hfst := validate_all_assets_fst env.valEnv
    rw [hv] at hfst
    exact hne (List.isEmpty_iff.mp hfst.symm)

/-- C2 witness: a resumed project with matching integrity record, all stages
able to run, and a missing plan file (so the gate fails). -/
theorem c2_gate_always_guards_editor_witness :
    Event.gate ∈ run_pipeline envResume
      ∧ ((validate_all_assets envResume.valEnv).2 ≠ []
          → Event.stage "editor" ∉ run_pipeline envResume) :=
  c2_gate_always_guards_editor envResume rfl (Or.inr (Or.inl (by decide)))
    rfl rfl rfl rfl

/-- C3: for every step of the fixed sequence and every project state whose
`StepStatus` already contains that step and whose `IntegrityRecord` matches
the on-disk files, re-running the pipeline never invokes that step's external
stage modules. -/
theorem c3_completed_step_not_reinvoked (env : Env) (step m : String)
    (hstep : step ∈ stepNames) (hmem : step ∈ env.status0)
    (hint : verify_file_integrity env.fileHashes0 env.fileExists env.fileHash = true)
    (hm : m ∈ modulesOf step) :
    Event.stage m ∉ run_pipeline env := by
  intro hc
  by_cases hs : env.setupOk = true
  · rw [run_pipeline_no_reset hs (Or.inr hint)] at hc
    exact module_skip_stepScript env step m hstep hm env.status0 hmem hc
  · rw [run_pipeline] at hc
    simp [setupOk_false_of_ne hs] at hc

/-- C3 witness: the resumed project, whose completed `direction` step's
director module is not re-invoked. -/
theorem c3_completed_step_not_reinvoked_witness :
    Event.stage "director" ∉ run_pipeline envResume :=
  c3_completed_step_not_reinvoked envResume "direction" "director"
    (by decide) (by decide) (by decide) (by decide)

/-- C7 counterexample: with `verify_before_editor` disabled in the config and
a missing plan file, `validate_all_assets` returns `(true, [])` without
running any check, although the plan-file check (had it run) fails — so the
claimed behaviour (asset checks run whenever the plan check does not fail)
does not hold as stated for every configuration. -/
theorem c7_short_circuit_counterexample :
    (validate_project_file valEnvDisabled.planPath valEnvDisabled.plan).1 = false
      ∧ validate_all_assets valEnvDisabled = (true, [])
      ∧ validate_all_assets valEnvDisabled ≠ claimedValidateAll valEnvDisabled := by
  decide

/-- C7 (amended): whenever asset validation is enabled in the config (the
default), `validate_all_assets` behaves exactly as claimed: it short-circuits
only on the plan-file check, otherwise runs the audio, image and music checks
unconditionally, accumulates every issue from all of them, and returns ok
exactly when the accumulated issue list is empty. -/
theorem c7_short_circuit_only_on_plan_check (env : ValEnv)
    (h : env.enabled = true) :
    validate_all_assets env = claimedValidateAll env := by
  unfold validate_all_assets claimedValidateAll
  rw [h]
  simp

/-- C7 witness: the enabled environment with a missing plan file. -/
theorem c7_short_circuit_only_on_plan_check_witness :
    validate_all_assets valEnvPlanMissing = claimedValidateAll valEnvPlanMissing :=
  c7_short_circuit_only_on_plan_check valEnvPlanMissing rfl

/-- C8 counterexample: two JSON-serialisable dictionaries that `write_json`
then `read_json` does not return deep-equal. The dictionary `\x7b1: "a"\x7d`
(accepted by `json.dump`, which coerces the `int` key to `"1"`) reads back
as `\x7b"1": "a"\x7d`; and the string-keyed dictionary `\x7b"a": (1, 2)\x7d`
reads back as `\x7b"a": [1, 2]\x7d`, because tuples are serialised as JSON
arrays and arrays are always parsed as lists, which never compare equal to
tuples; and for the string-keyed, tuple-free `\x7b"a": float("nan")\x7d`,
the read returns the freshly parsed structural copy, which is not
Python-deep-equal to the input because `nan == nan` is false. Each refutes
the claim as stated; the last two force the amendment to exclude tuple
values and NaN floats, not only non-string keys. -/
theorem c8_roundtrip_counterexample :
    (read_json (write_json fsEmpty "data.json" dIntKey).2 "data.json"
        = some (.dict [(.s "1", .str "a")])
      ∧ read_json (write_json fsEmpty "data.json" dIntKey).2 "data.json"
          ≠ some dIntKey)
      ∧ (read_json (write_json fsEmpty "data.json" dTuple).2 "data.json"
          = some (.dict [(.s "a", .list [.int 1, .int 2])])
        ∧ read_json (write_json fsEmpty "data.json" dTuple).2 "data.json"
            ≠ some dTuple)
      ∧ (read_json (write_json fsEmpty "data.json" dNaN).2 "data.json"
          = some (.dict [(.s "a", .float .nan)])
        ∧ deepEqCopy dNaN = false) := by
  refine ⟨⟨rfl, ?_⟩, ⟨rfl, ?_⟩, rfl, rfl⟩
  · intro hx
    rw [show read_json (write_json fsEmpty "data.json" dIntKey).2 "data.json"
        = some (.dict [(.s "1", .str "a")]) from rfl] at hx
    simp [dIntKey] at hx
  · intro hx
    rw [show read_json (write_json fsEmpty "data.json" dTuple).2 "data.json"
        = some (.dict [(.s "a", .list [.int 1, .int 2])]) from rfl] at hx
    simp [dTuple] at hx

/-- C8 (amended): for every dictionary whose keys are strings at every
nesting depth and which contains no tuple values and no NaN floats (the
coerced, list-coerced and never-self-equal cases the counterexample and
`nan != nan` force out — finite and infinite floats round-trip exactly and
are allowed), `write_json` then `read_json` on the same path returns data
deep-equal to the input; and at every intermediate filesystem state of the
write, the destination path holds either its old content, nothing, or the
complete new serialised document — never a partial write. -/
theorem c8_roundtrip_and_atomicity (fs : FSState) (p : String) (d : PyVal)
    (h : SK d = true) :
    read_json (write_json fs p d).2 p = some d
      ∧ ∀ s ∈ (write_json fs p d).1,
          s p = fs p ∨ s p = none ∨ s p = some (.jsonFile (dump d)) := by
  have h4 : (".tmp" : String).length = 4 := rfl
  have hne : ¬(p = p ++ ".tmp") := by
    intro hx
    have hl := congrArg String.length hx
    rw [String.length_append, h4] at hl
    omega
  constructor
  · simp [write_json, read_json, fsSet, load_dump d h]
  · intro s hs
    simp only [write_json, List.mem_cons, List.not_mem_nil, or_false] at hs
    rcases hs with rfl | rfl | rfl | rfl | rfl
    · exact Or.inl rfl
    · exact Or.inl (by simp [fsSet, hne])
    · exact Or.inl (by simp [fsSet, hne])
    · by_cases h2 : (fs p).isSome = true
      · refine Or.inr (Or.inl ?_)
        simp only [fsSet, if_neg hne]
        simp [h2, fsSet]
      · refine Or.inl ?_
        simp only [fsSet, if_neg hne]
        simp [h2, fsSet, hne]
    · exact Or.inr (Or.inr (by simp [fsSet]))

/-- C8 witness: a string-keyed status dictionary round-trips through
`write_json` and `read_json`. -/
theorem c8_roundtrip_and_atomicity_witness :
    read_json (write_json fsEmpty "status.json" dStr).2 "status.json" = some dStr :=
  (c8_roundtrip_and_atomicity fsEmpty "status.json" dStr rfl).1

/-- C10: `verify_file_integrity` on an empty integrity record returns true
whatever the filesystem looks like, so a resumed run with a non-empty
`StepStatus` and an empty (or unreadable, hence defaulted-empty)
`integrity.json` shows no reset prompt, performs no reset, and still skips
every step recorded complete — even when every output file has been deleted
or modified. -/
theorem c10_empty_integrity_trusted (env : Env) (hH : env.fileHashes0 = [])
    (_hS : env.status0 ≠ []) :
    (∀ (fe : String → Bool) (fh : String → Option String),
        verify_file_integrity [] fe fh = true)
      ∧ Event.resetPrompt ∉ run_pipeline env
      ∧ Event.reset ∉ run_pipeline env
      ∧ (∀ step, step ∈ stepNames → step ∈ env.status0 →
          ∀ m, m ∈ modulesOf step → Event.stage m ∉ run_pipeline env) := by
  have hver : verify_file_integrity env.fileHashes0 env.fileExists env.fileHash = true := by
    rw [hH]; rfl
  have htr : run_pipeline env = stepScript env env.status0 ∨ run_pipeline env = [] := by
    by_cases hs : env.setupOk = true
    · exact .inl (run_pipeline_no_reset hs (Or.inr hver))
    · right
      rw [run_pipeline]
      simp [setupOk_false_of_ne hs]
  refine ⟨fun fe fh => rfl, ?_, ?_, ?_⟩
  · rcases htr with h | h <;> rw [h]
    · exact resetPrompt_notin_stepScript
    · simp
  · rcases htr with h | h <;> rw [h]
    · exact reset_notin_stepScript
    · simp
  · intro step hstep hmem m hm
    rcases htr with h | h <;> rw [h]
    · exact module_skip_stepScript env step m hstep hm env.status0 hmem
    · simp

/-- C10 witness: the resumed project with an empty integrity record and all
files deleted: no prompt, no reset, scriptwriting skipped. -/
theorem c10_empty_integrity_trusted_witness :
    Event.resetPrompt ∉ run_pipeline envEmptyHashes
      ∧ Event.reset ∉ run_pipeline envEmptyHashes
      ∧ Event.stage "scriptwriter" ∉ run_pipeline envEmptyHashes := by
  obtain ⟨h1, h2, h3, h4⟩ := c10_empty_integrity_trusted envEmptyHashes rfl (by decide)
  exact ⟨h2, h3, h4 "scriptwriting" (by decide) (by decide) "scriptwriter" (by decide)⟩

end Oktabot
